import Mathlib

/-!
# Verification of the NewsAnalyzerDashboard ingestion/clustering core

A shallow embedding of the ingestion-normalization-and-clustering pipeline:

* `parseDate` embeds `GenericScraper._parse_date` (src/app/scrapers/generic_scraper.py,
  lines 74-124).  Instants are integers counting minutes on the UTC timeline;
  the external `dateutil.parser.parse` is an oracle parameter.  Note that
  `generic_scraper.py` imports only `datetime` from the `datetime` module
  (line 4), so the name `timedelta` used at lines 111-115 is unbound: every
  relative-pattern match raises `NameError`, which the enclosing
  `except Exception` handler (line 122) turns into `datetime.now(pytz.UTC)`.
* `determinePosition` embeds `GenericScraper._determine_position`
  (lines 126-151) over a tree model of HTML tags; `Tag.findAll` is
  BeautifulSoup's `find_all()` (all proper descendants) and `Tag.eqb` its deep
  structural tag equality.
* `analyzeNewsItem` embeds the grouping/duplicate policy of
  `analyze_news_item` (src/app/tasks/analysis_tasks.py, lines 41-221) over an
  explicit relational store; the hazm preprocessing and the TF-IDF/cosine
  similarity computation are oracle parameters (`P`, `simOracle`), with the
  `np.argmax` selection (`argmaxIdx`) embedded concretely.
* `calculatePublicationSpeed` embeds the task of the same name (lines 223-279);
  the SQL `ORDER BY publication_timestamp ASC` is realized by an insertion
  sort on the joined rows.
* `crawlStep`/`crawlLoop` embed the per-item persistence loop of
  `crawl_agency` (src/app/tasks/crawler_tasks.py, lines 41-76) together with
  the `UNIQUE` constraint on `news_items.url` (src/app/models.py, line 40).
-/

namespace NewsAnalyzer

/-! ## Data model (src/app/models.py) -/

/-- A persisted `NewsItem` row.  Times are integral minutes on the UTC
timeline; similarity scores are rationals. -/
structure NewsItem where
  id : Nat
  agencyId : Nat
  title : String
  url : String
  fullText : Option String
  pubTime : Option ℤ
  crawlTime : ℤ
  isDuplicate : Bool
deriving DecidableEq, Repr

/-- A persisted `NewsGroup` row. -/
structure NewsGroup where
  id : Nat
  mainTitle : String
  creationTime : ℤ
deriving DecidableEq, Repr

/-- A persisted `NewsGroupItem` association row (membership edge). -/
structure NewsGroupItem where
  groupId : Nat
  itemId : Nat
  score : ℚ
deriving DecidableEq, Repr

/-- A persisted `AnalysisResult` row (`value` kept numeric: the code stores
`str(time_diff)` for speed metrics). -/
structure AnalysisRec where
  itemId : Nat
  analysisType : String
  value : ℤ
  time : ℤ
deriving DecidableEq, Repr

/-- The relational store, with counters supplying fresh primary keys. -/
structure Store where
  items : List NewsItem
  groups : List NewsGroup
  groupItems : List NewsGroupItem
  results : List AnalysisRec
  nextItemId : Nat
  nextGroupId : Nat
deriving DecidableEq, Repr

/-! ## Timestamp normalizer (`GenericScraper._parse_date`, lines 74-124)

The date string is inspected through the same tests as the Python code:
falsiness, `strip()`, a `'T'`/`'-'` containment test for the absolute branch,
and `re.search` of the three Persian relative patterns
`(\d+)\s*دقیقه\s*پیش`, `(\d+)\s*ساعت\s*پیش`, `(\d+)\s*روز\s*پیش`. -/

/-- Result of the external `dateutil.parser.parse`: a wall-clock reading in
minutes plus the parsed timezone offset (in minutes), when the string carried
one (`parsed_date.tzinfo`). -/
structure PyDatetime where
  clockMinutes : ℤ
  tzOffset : Option ℤ
deriving DecidableEq, Repr

/-- Asia/Tehran is UTC+3:30 — the offset `pytz` applies at `localize`. -/
def tehranOffsetMinutes : ℤ := 210

/-- `parsed_date.astimezone(pytz.UTC)` after the naive-value localization of
lines 94-95: a naive reading is interpreted in the Tehran zone. -/
def PyDatetime.toUtc (d : PyDatetime) : ℤ :=
  match d.tzOffset with
  | none => d.clockMinutes - tehranOffsetMinutes
  | some off => d.clockMinutes - off

/-- Value of a Unicode decimal digit as matched by `re`'s `\d` (ASCII,
Arabic-Indic and Extended Arabic-Indic digits) and converted by `int()`. -/
def digitVal (c : Char) : Option Nat :=
  if c.isDigit then some (c.toNat - 48)
  else if 0x660 ≤ c.toNat && c.toNat ≤ 0x669 then some (c.toNat - 0x660)
  else if 0x6F0 ≤ c.toNat && c.toNat ≤ 0x6F9 then some (c.toNat - 0x6F0)
  else none

/-- Greedy continuation of a digit run (the `(\d+)` capture). -/
def takeDigits : List Char → Nat → Nat × List Char
  | [], acc => (acc, [])
  | c :: cs, acc =>
    match digitVal c with
    | none => (acc, c :: cs)
    | some d => takeDigits cs (acc * 10 + d)

/-- Match `(\d+)` at the head of the character list. -/
def matchDigits : List Char → Option (Nat × List Char)
  | [] => none
  | c :: cs =>
    match digitVal c with
    | none => none
    | some d => some (takeDigits cs d)

/-- Skip `\s*`. -/
def skipWs : List Char → List Char
  | [] => []
  | c :: cs => if c.isWhitespace then skipWs cs else c :: cs

/-- Match a literal character sequence at the head of the list. -/
def dropLit : List Char → List Char → Option (List Char)
  | [], cs => some cs
  | _ :: _, [] => none
  | l :: ls, c :: cs => if c = l then dropLit ls cs else none

/-- Match `(\d+)\s*<unit>\s*پیش` anchored at the head of the list. -/
def matchRelAt (unit : List Char) (cs : List Char) : Option Nat :=
  match matchDigits cs with
  | none => none
  | some (n, rest) =>
    match dropLit unit (skipWs rest) with
    | none => none
    | some rest2 =>
      match dropLit "پیش".toList (skipWs rest2) with
      | none => none
      | some _ => some n

/-- `re.search`: try the anchored match at every position, leftmost first. -/
def searchRel (unit : List Char) : List Char → Option Nat
  | [] => none
  | c :: cs =>
    match matchRelAt unit (c :: cs) with
    | some n => some n
    | none => searchRel unit cs

/-- The time unit of a matched relative pattern. -/
inductive RelUnit where
  | minutes
  | hours
  | days
deriving DecidableEq, Repr

/-- The relative-pattern loop of lines 99-107: the three patterns are tried
in order (minutes, hours, days), first match wins. -/
def relMatch (s : List Char) : Option (Nat × RelUnit) :=
  match searchRel "دقیقه".toList s with
  | some n => some (n, RelUnit.minutes)
  | none =>
    match searchRel "ساعت".toList s with
    | some n => some (n, RelUnit.hours)
    | none =>
      match searchRel "روز".toList s with
      | some n => some (n, RelUnit.days)
      | none => none

/-- Python's `str.strip()`: drop leading and trailing whitespace. -/
def stripChars (cs : List Char) : List Char :=
  (skipWs (skipWs cs).reverse).reverse

/-- `GenericScraper._parse_date` (lines 74-124), working on the character
list of the raw string.  `dateutil` is the external `dateutil.parser.parse`
(`none` = the call raised), `nowUtcMinutes` is `datetime.now(pytz.UTC)` at
the moment of the call.  Returns `none` exactly where the Python code
returns `None` (falsy input, lines 76-77).

In the relative branch the Python code evaluates `now - timedelta(...)`, but
`timedelta` is never imported in `generic_scraper.py`; the resulting
`NameError` is caught by the `except Exception` handler of line 122, which
returns the current UTC time — so a matched relative pattern produces
`nowUtcMinutes`, not `now − N·unit`. -/
def parseDate (dateutil : List Char → Option PyDatetime) (nowUtcMinutes : ℤ)
    (dateString : List Char) : Option ℤ :=
  if dateString = [] then none
  else
    let s := stripChars dateString
    if s.contains 'T' || s.contains '-' then
      match dateutil s with
      | some d => some d.toUtc
      | none => some nowUtcMinutes
    else
      match relMatch s with
      | some _ => some nowUtcMinutes
      | none => some nowUtcMinutes

/-! ## Position heuristic (`GenericScraper._determine_position`, lines 126-151)

HTML elements are modelled as ordered trees.  The `label` stands for the
tag name together with its attributes, so two tags are BeautifulSoup-equal
(`Tag.__eq__`: same name, attributes and contents) iff they are structurally
equal trees. -/

/-- An HTML element: a label (tag name + attributes) and its child elements. -/
inductive Tag where
  | node (label : Nat) (children : List Tag)
deriving Repr

/-- BeautifulSoup deep tag equality (`Tag.__eq__`). -/
def Tag.eqb : Tag → Tag → Bool
  | .node a cs, .node b ds => a == b && eqbList cs ds
where
  eqbList : List Tag → List Tag → Bool
  | [], [] => true
  | c :: cs, d :: ds => Tag.eqb c d && eqbList cs ds
  | _, _ => false

/-- BeautifulSoup `find_all()` (no arguments): every proper descendant tag,
in document order. -/
def Tag.findAll : Tag → List Tag
  | .node _ cs => findAllList cs
where
  findAllList : List Tag → List Tag
  | [] => []
  | c :: cs => c :: (Tag.findAll c ++ findAllList cs)

/-- `GenericScraper._determine_position` (lines 126-151).  `allNews` is
`soup.select(news_list_selector)`; the loop of lines 135-138 records the
first index `i` with `element in all_news[i].find_all()` (Python `in` over
the descendant list, using deep tag equality). -/
def determinePosition (allNews : List Tag) (element : Tag) : String :=
  if allNews.isEmpty then "unknown"
  else
    match allNews.findIdx? (fun newsElem => newsElem.findAll.any (fun d => d.eqb element)) with
    | none => "unknown"
    | some i =>
      if i < 3 then "homepage_top"
      else if i < allNews.length / 2 then "homepage_middle"
      else "homepage_bottom"

/-! ## Text preprocessing (`preprocess_persian_text`, analysis_tasks.py lines 18-39)

The hazm `Normalizer.normalize`, `word_tokenize` and `stopwords_list` are
external; they enter as parameters.  The exception fallback of line 39
(return the raw text) is not taken on the modelled happy path. -/

/-- `preprocess_persian_text` (lines 18-36): normalize, tokenize, drop tokens
of length ≤ 2 and stopwords, rejoin with single spaces. -/
def preprocessPersianText (normalize : String → String)
    (tokenize : String → List String) (stopwords : List String)
    (text : String) : String :=
  if text = "" then ""
  else
    let tokens := tokenize (normalize text)
    let filtered := tokens.filter (fun t => 2 < t.length && !(stopwords.contains t))
    String.intercalate " " filtered

/-! ## Grouping & duplicate policy (`analyze_news_item`, lines 41-221)

The whole preprocessing pipeline enters as one oracle `P` (title-plus-text
string to cleaned string), and the TF-IDF/cosine step of lines 126-130 as an
oracle `simOracle` from the `texts` list to the similarity row of the new
document against the candidates (`none` = the vectorizer raised).  The
`np.argmax` selection and all store manipulation are embedded concretely. -/

/-- The text handed to preprocessing: `news_item.title + ' ' + (news_item.full_text or '')`. -/
def joinedText (it : NewsItem) : String := it.title ++ " " ++ it.fullText.getD ""

/-- Seven days in minutes (`timedelta(days=7)`). -/
def weekMinutes : ℤ := 10080

/-- The candidate window of lines 62-67: items other than the analyzed one,
crawled within the last 7 days, not flagged duplicate. -/
def recentCandidates (S : Store) (item : NewsItem) (now : ℤ) : List NewsItem :=
  S.items.filter (fun it =>
    it.id != item.id && decide (now - weekMinutes ≤ it.crawlTime) && !it.isDuplicate)

/-- Lines 96-100: preprocess each candidate and keep the ids and texts of
those with non-empty cleaned text. -/
def usableCandidates (P : String → String) (cands : List NewsItem) :
    List (Nat × String) :=
  cands.filterMap (fun it =>
    let t := P (joinedText it)
    if t.toList.all (·.isWhitespace) then none else some (it.id, t))

/-- Maximum of a similarity row (0 for the empty row). -/
def listMax : List ℚ → ℚ
  | [] => 0
  | [x] => x
  | x :: y :: xs => max x (listMax (y :: xs))

/-- `np.argmax`: index of the maximum entry, first occurrence wins. -/
def argmaxIdx : List ℚ → Nat
  | [] => 0
  | [_] => 0
  | x :: y :: xs => if x < listMax (y :: xs) then argmaxIdx (y :: xs) + 1 else 0

/-- The grouping threshold of line 136 (`similarity_threshold = 0.75`). -/
def similarityThreshold : ℚ := ⟨3, 4, by decide, by decide⟩

/-- The duplicate threshold of line 158 (`max_similarity >= 0.9`). -/
def duplicateThreshold : ℚ := ⟨9, 10, by decide, by decide⟩

/-- The structured result returned by `analyze_news_item`. -/
inductive AnalyzeOutcome where
  | notFound
  | alreadyDuplicate
  | noText
  | newGroup (groupId : Nat) (maxSim : Option ℚ)
  | newGroupFallback (groupId : Nat)
  | addedToGroup (groupId : Nat) (score : ℚ) (isDup : Bool)
deriving DecidableEq, Repr

/-- Create a singleton group for the item: a fresh `NewsGroup` whose
`main_title` is the item's title plus a founding membership with score 1.0
(lines 70-85 and the three identical blocks below them). -/
def createNewGroup (S : Store) (item : NewsItem) (now : ℤ) : Store × Nat :=
  let gid := S.nextGroupId
  ({S with
      groups := S.groups ++ [{id := gid, mainTitle := item.title, creationTime := now}],
      groupItems := S.groupItems ++ [{groupId := gid, itemId := item.id, score := 1}],
      nextGroupId := gid + 1}, gid)

/-- Set the duplicate flag on a stored item (line 159 + commit). -/
def setDuplicate (S : Store) (itemId : Nat) : Store :=
  {S with items := S.items.map (fun it =>
    if it.id == itemId then {it with isDuplicate := true} else it)}

/-- `analyze_news_item` (lines 41-221). -/
def analyzeNewsItem (P : String → String) (simOracle : List String → Option (List ℚ))
    (S : Store) (itemId : Nat) (now : ℤ) : Store × AnalyzeOutcome :=
  match S.items.find? (fun it => it.id == itemId) with
  | none => (S, .notFound)
  | some item =>
    if item.isDuplicate then (S, .alreadyDuplicate)
    else
      let itemText := P (joinedText item)
      if itemText.toList.all (·.isWhitespace) then (S, .noText)
      else
        let cands := recentCandidates S item now
        if cands.isEmpty then
          let res := createNewGroup S item now
          (res.1, .newGroup res.2 none)
        else
          let usable := usableCandidates P cands
          if usable.isEmpty then
            let res := createNewGroup S item now
            (res.1, .newGroup res.2 none)
          else
            match simOracle (itemText :: usable.map Prod.snd) with
            | none =>
              let res := createNewGroup S item now
              (res.1, .newGroupFallback res.2)
            | some sims =>
              if sims.isEmpty then
                let res := createNewGroup S item now
                (res.1, .newGroupFallback res.2)
              else
                let mIdx := argmaxIdx sims
                let mSim := sims.getD mIdx 0
                if similarityThreshold ≤ mSim then
                  match usable[mIdx]? with
                  | none =>
                    let res := createNewGroup S item now
                    (res.1, .newGroupFallback res.2)
                  | some cand =>
                    match S.groupItems.find? (fun gi => gi.itemId == cand.1) with
                    | some egi =>
                      let isDup := duplicateThreshold ≤ mSim
                      let S1 := {S with groupItems :=
                        S.groupItems ++ [{groupId := egi.groupId, itemId := item.id, score := mSim}]}
                      let S2 := if isDup then setDuplicate S1 item.id else S1
                      (S2, .addedToGroup egi.groupId mSim isDup)
                    | none =>
                      let res := createNewGroup S item now
                      (res.1, .newGroup res.2 (some mSim))
                else
                  let res := createNewGroup S item now
                  (res.1, .newGroup res.2 (some mSim))

/-! ## Publication-speed calculator (`calculate_publication_speed`, lines 223-279) -/

/-- The `analysis_type` of a speed metric. -/
def speedKind : String := "speed_to_publish"

/-- Comparison on joined rows used by `ORDER BY publication_timestamp ASC`. -/
def pubLe (a b : NewsItem × NewsGroupItem) : Bool :=
  decide (a.1.pubTime.getD 0 ≤ b.1.pubTime.getD 0)

/-- Insert into a `le`-sorted list. -/
def insertSorted (le : α → α → Bool) (x : α) : List α → List α
  | [] => [x]
  | y :: ys => if le x y then x :: y :: ys else y :: insertSorted le x ys

/-- Insertion sort realizing the SQL `ORDER BY` clause. -/
def sortBy (le : α → α → Bool) (l : List α) : List α :=
  l.foldr (insertSorted le) []

/-- The join of lines 232-237 before ordering: one row per membership of the
group whose item exists and has a publication timestamp. -/
def joinedGroupRows (S : Store) (gid : Nat) : List (NewsItem × NewsGroupItem) :=
  S.groupItems.filterMap (fun gi =>
    if gi.groupId == gid then
      match S.items.find? (fun it => it.id == gi.itemId) with
      | some it => if it.pubTime.isSome then some (it, gi) else none
      | none => none
    else none)

/-- The ordered `group_items` list of lines 232-237. -/
def speedGroupRows (S : Store) (gid : Nat) : List (NewsItem × NewsGroupItem) :=
  sortBy pubLe (joinedGroupRows S gid)

/-- `AnalysisResult.query.filter_by(news_item_id=…, analysis_type='speed_to_publish').first()`
is some row (lines 254-257). -/
def hasSpeedMetric (S : Store) (itemId : Nat) : Bool :=
  S.results.any (fun r => r.itemId == itemId && r.analysisType == speedKind)

/-- The structured result returned by `calculate_publication_speed`. -/
inductive SpeedOutcome where
  | groupNotFound
  | insufficientItems
  | success (count : Nat)
deriving DecidableEq, Repr

/-- The loop of lines 248-267 over `group_items[1:]`: for each timestamped
row without an existing speed metric, persist one `AnalysisResult` whose
value is the minutes elapsed since the first row's publication time.  The
existence check runs against the session state, so it sees rows added
earlier in the same loop. -/
def speedLoop (firstTime now : ℤ) :
    List (NewsItem × NewsGroupItem) → Store → Nat → Store × Nat
  | [], S, c => (S, c)
  | p :: rest, S, c =>
    if p.1.pubTime.isSome then
      if hasSpeedMetric S p.1.id then speedLoop firstTime now rest S c
      else
        speedLoop firstTime now rest
          {S with results := S.results ++
            [{itemId := p.1.id, analysisType := speedKind,
              value := p.1.pubTime.getD 0 - firstTime, time := now}]}
          (c + 1)
    else speedLoop firstTime now rest S c

/-- `calculate_publication_speed` (lines 223-279). -/
def calculatePublicationSpeed (S : Store) (gid : Nat) (now : ℤ) :
    Store × SpeedOutcome :=
  match S.groups.find? (fun g => g.id == gid) with
  | none => (S, .groupNotFound)
  | some _ =>
    match speedGroupRows S gid with
    | f :: r :: rest =>
      let res := speedLoop (f.1.pubTime.getD 0) now (r :: rest) S 0
      (res.1, .success res.2)
    | _ => (S, .insufficientItems)

/-! ## Ingestion loop (`crawl_agency`, crawler_tasks.py lines 41-76) -/

/-- One scraped record as produced by `scrape_news_list`. -/
structure ScrapedItem where
  title : String
  url : Option String
  fullText : Option String
  pubTime : Option ℤ
  category : Option String
  imageUrl : Option String
  position : String
deriving DecidableEq, Repr

/-- The saved/duplicate/error counters of lines 37-39. -/
structure CrawlCounts where
  saved : Nat
  dups : Nat
  errs : Nat
deriving DecidableEq, Repr

/-- `NewsItem.query.filter_by(url=…).first()` is some row (line 44). -/
def urlExists (S : Store) (u : String) : Bool :=
  S.items.any (fun n => n.url == u)

/-- One iteration of the persistence loop (lines 41-76).  A scraped item
whose URL is already stored is skipped and counted as a duplicate; an item
without a URL violates the NOT NULL constraint on `news_items.url`, raising
`IntegrityError`, which line 70-72 also counts as a duplicate. -/
def crawlStep (agencyId : Nat) (now : ℤ) (acc : Store × CrawlCounts)
    (it : ScrapedItem) : Store × CrawlCounts :=
  match it.url with
  | none => (acc.1, {acc.2 with dups := acc.2.dups + 1})
  | some u =>
    if urlExists acc.1 u then (acc.1, {acc.2 with dups := acc.2.dups + 1})
    else
      let n : NewsItem :=
        {id := acc.1.nextItemId, agencyId := agencyId, title := it.title, url := u,
         fullText := it.fullText, pubTime := it.pubTime, crawlTime := now,
         isDuplicate := false}
      ({acc.1 with items := acc.1.items ++ [n], nextItemId := acc.1.nextItemId + 1},
       {acc.2 with saved := acc.2.saved + 1})

/-- The whole persistence loop of `crawl_agency` over the scraped items. -/
def crawlLoop (agencyId : Nat) (now : ℤ) (S : Store) (its : List ScrapedItem) :
    Store × CrawlCounts :=
  its.foldl (crawlStep agencyId now) (S, ⟨0, 0, 0⟩)

/-! ## Derived observations on the store -/

/-- The stored duplicate flag of an item (`false` when the row is absent). -/
def storedDupFlag (S : Store) (itemId : Nat) : Bool :=
  ((S.items.find? (fun it => it.id == itemId)).map (fun it => it.isDuplicate)).getD false

/-- The speed metrics recorded for one item. -/
def metricsFor (S : Store) (itemId : Nat) : List AnalysisRec :=
  S.results.filter (fun r => r.itemId == itemId && r.analysisType == speedKind)

/-- Canonical-URL uniqueness across all stored articles. -/
def urlsNodup (S : Store) : Prop := (S.items.map (fun it => it.url)).Nodup

/-- The item ids of a group's memberships. -/
def memberIds (S : Store) (gid : Nat) : List Nat :=
  (S.groupItems.filter (fun gi => gi.groupId == gid)).map (fun gi => gi.itemId)

/-- The item ids carrying a speed metric among a group's members. -/
def groupSpeedIds (S : Store) (gid : Nat) : List Nat :=
  (S.results.filter (fun r =>
    r.analysisType == speedKind && (memberIds S gid).contains r.itemId)).map
      (fun r => r.itemId)

/-- The item ids of a group's timestamped members other than the earliest
(in the calculator's own publication-time order). -/
def tailMemberIds (S : Store) (gid : Nat) : List Nat :=
  (speedGroupRows S gid).tail.map (fun p => p.1.id)

/-- The inductive invariant behind the metric-count bound: speed metrics of
a group's members are pairwise for distinct items and only ever attached to
non-earliest timestamped members. -/
def SpeedInv (S : Store) (gid : Nat) : Prop :=
  (groupSpeedIds S gid).Nodup ∧ ∀ j ∈ groupSpeedIds S gid, j ∈ tailMemberIds S gid

/-! ## Concrete sample inputs -/

/-- A listing page of four sibling candidate elements (distinct leaf tags). -/
def samplePage : List Tag :=
  [.node 0 [], .node 1 [], .node 2 [], .node 3 []]

/-- A similarity score of 0.8 (in the grouping band, below the duplicate bar). -/
def scoreEightTenths : ℚ := ⟨4, 5, by decide, by decide⟩

/-- An article published at T0, member of group 10. -/
def speedItemA : NewsItem :=
  {id := 1, agencyId := 1, title := "a", url := "u1", fullText := none,
   pubTime := some 0, crawlTime := 0, isDuplicate := false}

/-- An article published at T0 + 47 minutes. -/
def speedItemB : NewsItem :=
  {id := 2, agencyId := 2, title := "b", url := "u2", fullText := none,
   pubTime := some 47, crawlTime := 5, isDuplicate := false}

/-- Founding membership of `speedItemA` in group 10. -/
def speedMembershipA : NewsGroupItem := {groupId := 10, itemId := 1, score := 1}

/-- Membership of `speedItemB` in group 10. -/
def speedMembershipB : NewsGroupItem :=
  {groupId := 10, itemId := 2, score := scoreEightTenths}

/-- Group 10 with both timestamped members and no metrics yet. -/
def speedStore : Store :=
  {items := [speedItemA, speedItemB],
   groups := [{id := 10, mainTitle := "a", creationTime := 0}],
   groupItems := [speedMembershipA, speedMembershipB],
   results := [], nextItemId := 3, nextGroupId := 11}

/-- Group 20 with a single timestamped member. -/
def speedStoreSmall : Store :=
  {items := [speedItemA],
   groups := [{id := 20, mainTitle := "a", creationTime := 0}],
   groupItems := [{groupId := 20, itemId := 1, score := 1}],
   results := [], nextItemId := 2, nextGroupId := 21}

/-- A store where item 2 is new and item 1 already sits in group 10. -/
def analyzeStore : Store :=
  {items := [speedItemA, speedItemB],
   groups := [{id := 10, mainTitle := "a", creationTime := 0}],
   groupItems := [speedMembershipA],
   results := [], nextItemId := 3, nextGroupId := 11}

/-- A store where item 2's best candidate has no group membership. -/
def orphanStore : Store :=
  {items := [speedItemA, speedItemB], groups := [], groupItems := [],
   results := [], nextItemId := 3, nextGroupId := 11}

/-- A store holding only item 1. -/
def noTextStore : Store :=
  {items := [speedItemA], groups := [], groupItems := [],
   results := [], nextItemId := 2, nextGroupId := 1}

/-- Item 2 already flagged duplicate. -/
def dupItem : NewsItem := {speedItemB with isDuplicate := true}

/-- A store where item 2 is already flagged duplicate. -/
def dupStore : Store :=
  {items := [speedItemA, dupItem], groups := [], groupItems := [],
   results := [], nextItemId := 3, nextGroupId := 1}

/-- A scraped record whose URL "u1" is already stored. -/
def scrapedDup : ScrapedItem :=
  {title := "t", url := some "u1", fullText := none, pubTime := none,
   category := none, imageUrl := none, position := "unknown"}

/-- The identity preprocessing oracle. -/
def idPre : String → String := fun s => s

/-- A preprocessing oracle producing empty cleaned text. -/
def emptyPre : String → String := fun _ => ""

/-- A similarity oracle returning one candidate score of 0.8. -/
def constSim : List String → Option (List ℚ) := fun _ => some [scoreEightTenths]

/-- A similarity oracle that always fails. -/
def noSim : List String → Option (List ℚ) := fun _ => none

/-! ## Helper lemmas -/

section SortLemmas

variable {α : Type _}

theorem mem_insertSorted {le : α → α → Bool} {x a : α} {l : List α} :
    a ∈ insertSorted le x l ↔ a = x ∨ a ∈ l := by
  induction l with
  | nil => simp [insertSorted]
  | cons y ys ih =>
    unfold insertSorted
    by_cases h : le x y = true
    · rw [if_pos h]; simp
    · rw [if_neg h]; simp only [List.mem_cons, ih]; tauto

theorem mem_sortBy {le : α → α → Bool} {a : α} {l : List α} :
    a ∈ sortBy le l ↔ a ∈ l := by
  induction l with
  | nil => simp [sortBy]
  | cons y ys ih =>
    unfold sortBy at ih ⊢
    simp only [List.foldr_cons]
    rw [mem_insertSorted]
    simp [ih]

theorem length_insertSorted (le : α → α → Bool) (x : α) (l : List α) :
    (insertSorted le x l).length = l.length + 1 := by
  induction l with
  | nil => simp [insertSorted]
  | cons y ys ih =>
    unfold insertSorted
    by_cases h : le x y = true
    · rw [if_pos h]; simp
    · rw [if_neg h]; simp [ih]

theorem length_sortBy (le : α → α → Bool) (l : List α) :
    (sortBy le l).length = l.length := by
  induction l with
  | nil => rfl
  | cons y ys ih =>
    unfold sortBy at ih ⊢
    simp only [List.foldr_cons]
    rw [length_insertSorted, ih]
    simp

theorem insertSorted_head_min {le : α → α → Bool}
    (hrefl : ∀ a, le a a = true)
    (htrans : ∀ a b c, le a b = true → le b c = true → le a c = true)
    (htotal : ∀ a b, le a b = false → le b a = true)
    (s : List α) (hs : ∀ f rest, s = f :: rest → ∀ q ∈ s, le f q = true) (x : α) :
    ∀ f rest, insertSorted le x s = f :: rest → ∀ q ∈ insertSorted le x s, le f q = true := by
  cases s with
  | nil =>
    intro f rest hfr q hq
    simp [insertSorted] at hfr hq
    rw [hq, hfr.1]
    exact hrefl f
  | cons y ys =>
    intro f rest hfr q hq
    unfold insertSorted at hfr hq
    by_cases h : le x y = true
    · rw [if_pos h] at hfr hq
      have hf : f = x := by injection hfr with h1 _; exact h1.symm
      subst hf
      rcases List.mem_cons.mp hq with rfl | hq2
      · exact hrefl q
      · exact htrans _ _ _ h (hs y ys rfl q hq2)
    · rw [if_neg h] at hfr hq
      have hf : f = y := by injection hfr with h1 _; exact h1.symm
      subst hf
      rcases List.mem_cons.mp hq with rfl | hq2
      · exact hrefl q
      · rcases mem_insertSorted.mp hq2 with rfl | hq3
        · exact htotal _ _ (Bool.not_eq_true _ ▸ h)
        · exact hs f ys rfl q (List.mem_cons_of_mem _ hq3)

theorem sortBy_head_min {le : α → α → Bool}
    (hrefl : ∀ a, le a a = true)
    (htrans : ∀ a b c, le a b = true → le b c = true → le a c = true)
    (htotal : ∀ a b, le a b = false → le b a = true)
    (l : List α) :
    ∀ f rest, sortBy le l = f :: rest → ∀ q ∈ sortBy le l, le f q = true := by
  induction l with
  | nil => intro f rest h; simp [sortBy] at h
  | cons y ys ih =>
    unfold sortBy at ih ⊢
    simp only [List.foldr_cons]
    exact insertSorted_head_min hrefl htrans htotal _ ih y

end SortLemmas

theorem pubLe_refl (a : NewsItem × NewsGroupItem) : pubLe a a = true := by
  simp [pubLe]

theorem pubLe_trans (a b c : NewsItem × NewsGroupItem)
    (h1 : pubLe a b = true) (h2 : pubLe b c = true) : pubLe a c = true := by
  simp [pubLe] at h1 h2 ⊢
  omega

theorem pubLe_total (a b : NewsItem × NewsGroupItem) (h : pubLe a b = false) :
    pubLe b a = true := by
  simp [pubLe] at h ⊢
  omega

theorem storedDupFlag_of_find? (S : Store) (iid : Nat) (item : NewsItem)
    (hfind : S.items.find? (fun it => it.id == iid) = some item) :
    storedDupFlag S iid = item.isDuplicate := by
  unfold storedDupFlag
  rw [hfind]
  rfl

theorem find?_setDuplicate_self (S : Store) (iid : Nat) (item : NewsItem)
    (hfind : S.items.find? (fun it => it.id == iid) = some item) :
    (setDuplicate S iid).items.find? (fun it => it.id == iid)
      = some {item with isDuplicate := true} := by
  unfold setDuplicate
  dsimp only
  rw [List.find?_map]
  have hp : ((fun (it : NewsItem) => it.id == iid) ∘
      fun (it : NewsItem) => if it.id == iid then {it with isDuplicate := true} else it)
      = fun (it : NewsItem) => it.id == iid := by
    funext it
    by_cases h : it.id = iid
    · simp [h]
    · simp [h]
  rw [hp, hfind]
  have hpt := List.find?_some hfind
  have hid : item.id = iid := by simpa using hpt
  simp [hid]

theorem storedDupFlag_setDuplicate (S : Store) (iid : Nat) (item : NewsItem)
    (hfind : S.items.find? (fun it => it.id == iid) = some item) :
    storedDupFlag (setDuplicate S iid) iid = true := by
  rw [storedDupFlag_of_find? _ _ _ (find?_setDuplicate_self S iid item hfind)]

theorem analyzeNewsItem_attach_eq (P : String → String)
    (simO : List String → Option (List ℚ))
    (S : Store) (itemId : Nat) (now : ℤ) (item : NewsItem) (sims : List ℚ)
    (cand : Nat × String) (egi : NewsGroupItem)
    (hfind : S.items.find? (fun it => it.id == itemId) = some item)
    (hdup : item.isDuplicate = false)
    (htext : (P (joinedText item)).toList.all (fun c => c.isWhitespace) = false)
    (hcands : (recentCandidates S item now).isEmpty = false)
    (husable : (usableCandidates P (recentCandidates S item now)).isEmpty = false)
    (hsim : simO (P (joinedText item) ::
        (usableCandidates P (recentCandidates S item now)).map Prod.snd) = some sims)
    (hne : sims.isEmpty = false)
    (hth : similarityThreshold ≤ sims.getD (argmaxIdx sims) 0)
    (hcand : (usableCandidates P (recentCandidates S item now))[argmaxIdx sims]? = some cand)
    (hgi : S.groupItems.find? (fun gi => gi.itemId == cand.1) = some egi) :
    analyzeNewsItem P simO S itemId now =
      (let S1 : Store := {S with groupItems := S.groupItems ++
            [{groupId := egi.groupId, itemId := item.id, score := sims.getD (argmaxIdx sims) 0}]}
       ((if duplicateThreshold ≤ sims.getD (argmaxIdx sims) 0 then setDuplicate S1 item.id else S1),
        .addedToGroup egi.groupId (sims.getD (argmaxIdx sims) 0)
          (decide (duplicateThreshold ≤ sims.getD (argmaxIdx sims) 0)))) := by
  simp only [List.getD] at hth
  simp only [analyzeNewsItem, hfind, hdup, htext, hcands, husable, hsim, hne, hcand, hgi,
    Bool.false_eq_true, if_false, List.getD]
  rw [if_pos hth]

theorem mem_joinedGroupRows_pubTime {S : Store} {gid : Nat}
    {p : NewsItem × NewsGroupItem} (hp : p ∈ joinedGroupRows S gid) :
    p.1.pubTime.isSome = true := by
  unfold joinedGroupRows at hp
  rcases List.mem_filterMap.mp hp with ⟨gi, _, heq⟩
  by_cases h : (gi.groupId == gid) = true
  · rw [if_pos h] at heq
    cases hfind : S.items.find? (fun it => it.id == gi.itemId) with
    | none => rw [hfind] at heq; exact absurd heq (by simp)
    | some it =>
      rw [hfind] at heq
      dsimp only at heq
      by_cases hps : it.pubTime.isSome = true
      · rw [if_pos hps] at heq
        injection heq with heq2
        rw [← heq2]
        exact hps
      · rw [if_neg hps] at heq; exact absurd heq (by simp)
  · rw [if_neg h] at heq; exact absurd heq (by simp)

theorem mem_speedGroupRows_pubTime {S : Store} {gid : Nat}
    {p : NewsItem × NewsGroupItem} (hp : p ∈ speedGroupRows S gid) :
    p.1.pubTime.isSome = true :=
  mem_joinedGroupRows_pubTime (mem_sortBy.mp hp)

theorem speedLoop_frame (ft now : ℤ) (l : List (NewsItem × NewsGroupItem))
    (S : Store) (c : Nat) :
    (speedLoop ft now l S c).1.items = S.items ∧
    (speedLoop ft now l S c).1.groups = S.groups ∧
    (speedLoop ft now l S c).1.groupItems = S.groupItems := by
  induction l generalizing S c with
  | nil => simp [speedLoop]
  | cons p rest ih =>
    unfold speedLoop
    by_cases h1 : p.1.pubTime.isSome = true
    · rw [if_pos h1]
      by_cases h2 : hasSpeedMetric S p.1.id = true
      · rw [if_pos h2]; exact ih S c
      · rw [if_neg h2]; exact ih _ _
    · rw [if_neg h1]; exact ih S c

theorem speedLoop_metric_mono (ft now : ℤ) (l : List (NewsItem × NewsGroupItem))
    (S : Store) (c j : Nat) (h : hasSpeedMetric S j = true) :
    hasSpeedMetric (speedLoop ft now l S c).1 j = true := by
  induction l generalizing S c with
  | nil => exact h
  | cons p rest ih =>
    unfold speedLoop
    by_cases h1 : p.1.pubTime.isSome = true
    · rw [if_pos h1]
      by_cases h2 : hasSpeedMetric S p.1.id = true
      · rw [if_pos h2]; exact ih S c h
      · rw [if_neg h2]
        apply ih
        unfold hasSpeedMetric at h ⊢
        dsimp only
        rw [List.any_append]
        rw [h]
        rfl
    · rw [if_neg h1]; exact ih S c h

theorem metricsFor_append_other (S : Store) (r : AnalysisRec) (j : Nat)
    (h : (r.itemId == j) = false) :
    metricsFor {S with results := S.results ++ [r]} j = metricsFor S j := by
  unfold metricsFor
  dsimp only
  rw [List.filter_append]
  simp [List.filter, h]

theorem hasSpeedMetric_append_other (S : Store) (r : AnalysisRec) (j : Nat)
    (h : (r.itemId == j) = false) :
    hasSpeedMetric {S with results := S.results ++ [r]} j = hasSpeedMetric S j := by
  unfold hasSpeedMetric
  dsimp only
  rw [List.any_append]
  simp [List.any, h]

theorem speedLoop_untouched (ft now : ℤ) (l : List (NewsItem × NewsGroupItem))
    (S : Store) (c j : Nat) (hj : j ∉ l.map (fun p => p.1.id)) :
    metricsFor (speedLoop ft now l S c).1 j = metricsFor S j ∧
    hasSpeedMetric (speedLoop ft now l S c).1 j = hasSpeedMetric S j := by
  induction l generalizing S c with
  | nil => exact ⟨rfl, rfl⟩
  | cons p rest ih =>
    have hj1 : (p.1.id == j) = false := by
      simp only [List.map_cons, List.mem_cons] at hj
      simp only [beq_eq_false_iff_ne, ne_eq]
      intro he
      exact hj (Or.inl he.symm)
    have hj2 : j ∉ rest.map (fun p => p.1.id) := by
      simp only [List.map_cons, List.mem_cons] at hj
      tauto
    unfold speedLoop
    by_cases h1 : p.1.pubTime.isSome = true
    · rw [if_pos h1]
      by_cases h2 : hasSpeedMetric S p.1.id = true
      · rw [if_pos h2]; exact ih S c hj2
      · rw [if_neg h2]
        have hstep := ih {S with results := S.results ++
          [{itemId := p.1.id, analysisType := speedKind,
            value := p.1.pubTime.getD 0 - ft, time := now}]} (c + 1) hj2
        rw [hstep.1, hstep.2]
        exact ⟨metricsFor_append_other S _ j hj1, hasSpeedMetric_append_other S _ j hj1⟩
    · rw [if_neg h1]; exact ih S c hj2

theorem metricsFor_append_self (S : Store) (r : AnalysisRec) (j : Nat)
    (hid : (r.itemId == j) = true) (hty : (r.analysisType == speedKind) = true) :
    metricsFor {S with results := S.results ++ [r]} j = metricsFor S j ++ [r] := by
  unfold metricsFor
  dsimp only
  rw [List.filter_append]
  simp [List.filter, hid, hty]

theorem metricsFor_eq_nil_of_no_metric (S : Store) (j : Nat)
    (h : hasSpeedMetric S j = false) : metricsFor S j = [] := by
  unfold hasSpeedMetric at h
  unfold metricsFor
  rw [List.filter_eq_nil_iff]
  intro r hr
  have := (List.any_eq_false).mp h r hr
  simp only [Bool.and_eq_true] at this ⊢
  tauto

theorem speedLoop_member (ft now : ℤ) (l : List (NewsItem × NewsGroupItem))
    (S : Store) (c : Nat)
    (hnodup : (l.map (fun p => p.1.id)).Nodup) :
    ∀ p ∈ l, p.1.pubTime.isSome = true →
      metricsFor (speedLoop ft now l S c).1 p.1.id =
        metricsFor S p.1.id ++
          (if hasSpeedMetric S p.1.id then []
           else [{itemId := p.1.id, analysisType := speedKind,
                  value := p.1.pubTime.getD 0 - ft, time := now}]) := by
  induction l generalizing S c with
  | nil => intro p hp; exact absurd hp (List.not_mem_nil p)
  | cons q rest ih =>
    have hq_not : q.1.id ∉ rest.map (fun p => p.1.id) := by
      simp only [List.map_cons, List.nodup_cons] at hnodup
      exact hnodup.1
    have hnd2 : (rest.map (fun p => p.1.id)).Nodup := by
      simp only [List.map_cons, List.nodup_cons] at hnodup
      exact hnodup.2
    intro p hp hpub
    rcases List.mem_cons.mp hp with rfl | hp2
    · unfold speedLoop
      rw [if_pos hpub]
      by_cases h2 : hasSpeedMetric S p.1.id = true
      · rw [if_pos h2, if_pos h2]
        rw [(speedLoop_untouched ft now rest S c p.1.id hq_not).1]
        simp
      · rw [if_neg h2]
        rw [eq_false_of_ne_true h2]
        simp only [Bool.false_eq_true, if_false]
        rw [(speedLoop_untouched ft now rest _ (c + 1) p.1.id hq_not).1]
        exact metricsFor_append_self S _ p.1.id (by simp) (by simp)
    · have hne : (q.1.id == p.1.id) = false := by
        simp only [beq_eq_false_iff_ne, ne_eq]
        intro he
        exact hq_not (he ▸ List.mem_map_of_mem (fun p => p.1.id) hp2)
      unfold speedLoop
      by_cases h1 : q.1.pubTime.isSome = true
      · rw [if_pos h1]
        by_cases h2 : hasSpeedMetric S q.1.id = true
        · rw [if_pos h2]
          exact ih S c hnd2 p hp2 hpub
        · rw [if_neg h2]
          have hS2m := metricsFor_append_other S
            {itemId := q.1.id, analysisType := speedKind,
             value := q.1.pubTime.getD 0 - ft, time := now} p.1.id hne
          have hS2h := hasSpeedMetric_append_other S
            {itemId := q.1.id, analysisType := speedKind,
             value := q.1.pubTime.getD 0 - ft, time := now} p.1.id hne
          rw [ih _ (c + 1) hnd2 p hp2 hpub, hS2m, hS2h]
      · rw [if_neg h1]
        exact ih S c hnd2 p hp2 hpub

theorem speedLoop_all_metered (ft now : ℤ) (l : List (NewsItem × NewsGroupItem))
    (S : Store) (c : Nat) :
    ∀ p ∈ l, p.1.pubTime.isSome = true →
      hasSpeedMetric (speedLoop ft now l S c).1 p.1.id = true := by
  induction l generalizing S c with
  | nil => intro p hp; exact absurd hp (List.not_mem_nil p)
  | cons q rest ih =>
    intro p hp hpub
    rcases List.mem_cons.mp hp with rfl | hp2
    · unfold speedLoop
      rw [if_pos hpub]
      by_cases h2 : hasSpeedMetric S p.1.id = true
      · rw [if_pos h2]
        exact speedLoop_metric_mono ft now rest S c p.1.id h2
      · rw [if_neg h2]
        apply speedLoop_metric_mono
        unfold hasSpeedMetric
        dsimp only
        rw [List.any_append]
        simp
    · unfold speedLoop
      by_cases h1 : q.1.pubTime.isSome = true
      · rw [if_pos h1]
        by_cases h2 : hasSpeedMetric S q.1.id = true
        · rw [if_pos h2]; exact ih S c p hp2 hpub
        · rw [if_neg h2]; exact ih _ (c + 1) p hp2 hpub
      · rw [if_neg h1]; exact ih S c p hp2 hpub

theorem speedLoop_noop (ft now : ℤ) (l : List (NewsItem × NewsGroupItem))
    (S : Store) (c : Nat)
    (h : ∀ p ∈ l, p.1.pubTime.isSome = true → hasSpeedMetric S p.1.id = true) :
    speedLoop ft now l S c = (S, c) := by
  induction l with
  | nil => rfl
  | cons q rest ih =>
    unfold speedLoop
    by_cases h1 : q.1.pubTime.isSome = true
    · rw [if_pos h1, if_pos (h q (List.mem_cons_self q rest) h1)]
      exact ih (fun p hp => h p (List.mem_cons_of_mem q hp))
    · rw [if_neg h1]
      exact ih (fun p hp => h p (List.mem_cons_of_mem q hp))

theorem joinedGroupRows_congr (S S' : Store) (gid : Nat)
    (hi : S'.items = S.items) (hg : S'.groupItems = S.groupItems) :
    joinedGroupRows S' gid = joinedGroupRows S gid := by
  unfold joinedGroupRows
  rw [hi, hg]

theorem speedGroupRows_congr (S S' : Store) (gid : Nat)
    (hi : S'.items = S.items) (hg : S'.groupItems = S.groupItems) :
    speedGroupRows S' gid = speedGroupRows S gid := by
  unfold speedGroupRows
  rw [joinedGroupRows_congr S S' gid hi hg]

theorem not_mem_groupSpeedIds_of_no_metric (S : Store) (gid j : Nat)
    (h : hasSpeedMetric S j = false) : j ∉ groupSpeedIds S gid := by
  unfold groupSpeedIds
  intro hj
  rcases List.mem_map.mp hj with ⟨r, hr, rfl⟩
  have hrf := List.of_mem_filter hr
  have hrm := List.mem_of_mem_filter hr
  unfold hasSpeedMetric at h
  have hfalse := (List.any_eq_false).mp h r hrm
  simp only [Bool.and_eq_true] at hrf
  simp only [beq_self_eq_true, Bool.true_and] at hfalse
  rw [hrf.1] at hfalse
  simp at hfalse

theorem groupSpeedIds_append (S : Store) (rec : AnalysisRec) (gid : Nat) :
    groupSpeedIds {S with results := S.results ++ [rec]} gid
      = groupSpeedIds S gid ++
        (if rec.analysisType == speedKind && (memberIds S gid).contains rec.itemId
         then [rec.itemId] else []) := by
  unfold groupSpeedIds memberIds
  dsimp only
  rw [List.filter_append, List.map_append]
  congr 1
  rw [List.filter_singleton]
  by_cases h : (rec.analysisType == speedKind
      && ((S.groupItems.filter (fun gi => gi.groupId == gid)).map
            (fun gi => gi.itemId)).contains rec.itemId) = true
  · rw [if_pos h, h]
    rfl
  · rw [if_neg h]
    rw [Bool.not_eq_true] at h
    rw [h]
    rfl

theorem speedLoop_inv (gid : Nat) (T : List Nat) (ft now : ℤ)
    (l : List (NewsItem × NewsGroupItem)) (S : Store) (c : Nat)
    (hmem : ∀ p ∈ l, p.1.id ∈ T)
    (hnd : (groupSpeedIds S gid).Nodup)
    (hsub : ∀ j ∈ groupSpeedIds S gid, j ∈ T) :
    (groupSpeedIds (speedLoop ft now l S c).1 gid).Nodup ∧
    ∀ j ∈ groupSpeedIds (speedLoop ft now l S c).1 gid, j ∈ T := by
  induction l generalizing S c with
  | nil => exact ⟨hnd, hsub⟩
  | cons q rest ih =>
    have hmem2 : ∀ p ∈ rest, p.1.id ∈ T :=
      fun p hp => hmem p (List.mem_cons_of_mem q hp)
    unfold speedLoop
    by_cases h1 : q.1.pubTime.isSome = true
    · rw [if_pos h1]
      by_cases h2 : hasSpeedMetric S q.1.id = true
      · rw [if_pos h2]; exact ih S c hmem2 hnd hsub
      · rw [if_neg h2]
        rw [Bool.not_eq_true] at h2
        have hgs := groupSpeedIds_append S
          {itemId := q.1.id, analysisType := speedKind,
           value := q.1.pubTime.getD 0 - ft, time := now} gid
        apply ih _ (c + 1) hmem2
        · rw [hgs]
          by_cases hc : (speedKind == speedKind
              && (memberIds S gid).contains q.1.id) = true
          · rw [if_pos hc]
            simp only [List.nodup_append, List.nodup_singleton, true_and]
            refine ⟨hnd, ?_⟩
            intro x hx
            simp only [List.mem_singleton]
            intro hxq
            rw [hxq] at hx
            exact not_mem_groupSpeedIds_of_no_metric S gid q.1.id h2 hx
          · rw [if_neg hc]
            simpa using hnd
        · rw [hgs]
          intro j hj
          rcases List.mem_append.mp hj with hold | hnew
          · exact hsub j hold
          · by_cases hc : (speedKind == speedKind
                && (memberIds S gid).contains q.1.id) = true
            · rw [if_pos hc] at hnew
              rcases List.mem_singleton.mp hnew with rfl
              exact hmem q (List.mem_cons_self q rest)
            · rw [if_neg hc] at hnew
              exact absurd hnew (List.not_mem_nil j)
    · rw [if_neg h1]; exact ih S c hmem2 hnd hsub

theorem speedInv_bound (S : Store) (gid : Nat) (h : SpeedInv S gid) :
    (groupSpeedIds S gid).length ≤ (joinedGroupRows S gid).length - 1 := by
  have hsub : groupSpeedIds S gid ⊆ tailMemberIds S gid := fun j hj => h.2 j hj
  have hle := (List.subperm_of_subset h.1 hsub).length_le
  have hlen : (tailMemberIds S gid).length = (joinedGroupRows S gid).length - 1 := by
    unfold tailMemberIds speedGroupRows
    rw [List.length_map, List.length_tail, length_sortBy]
  omega

theorem crawlStep_existing_url (a : Nat) (now : ℤ) (S : Store) (c : CrawlCounts)
    (it : ScrapedItem) (u : String) (hu : it.url = some u)
    (hex : urlExists S u = true) :
    crawlStep a now (S, c) it = (S, {c with dups := c.dups + 1}) := by
  unfold crawlStep
  rw [hu]
  dsimp only
  rw [hex]
  simp

theorem crawlStep_preserves_nodup (a : Nat) (now : ℤ) (acc : Store × CrawlCounts)
    (it : ScrapedItem) (h : urlsNodup acc.1) :
    urlsNodup (crawlStep a now acc it).1 := by
  unfold crawlStep
  cases hu : it.url with
  | none => exact h
  | some u =>
    dsimp only
    by_cases hex : urlExists acc.1 u = true
    · rw [hex]; simpa using h
    · rw [Bool.not_eq_true] at hex
      rw [hex]
      unfold urlsNodup at h ⊢
      simp only [if_false, Bool.false_eq_true]
      rw [List.map_append]
      simp only [List.map_cons, List.map_nil]
      rw [List.nodup_append]
      refine ⟨h, List.nodup_singleton _, ?_⟩
      intro x hx
      unfold urlExists at hex
      have := (List.any_eq_false).mp hex
      simp only [List.mem_singleton]
      intro hxu
      rcases List.mem_map.mp hx with ⟨n, hn, rfl⟩
      have h2 := this n hn
      simp [hxu] at h2

theorem crawlLoop_preserves_nodup (a : Nat) (now : ℤ) (S : Store)
    (its : List ScrapedItem) (h : urlsNodup S) :
    urlsNodup (crawlLoop a now S its).1 := by
  unfold crawlLoop
  suffices H : ∀ acc : Store × CrawlCounts, urlsNodup acc.1 →
      urlsNodup (its.foldl (crawlStep a now) acc).1 by
    exact H (S, ⟨0, 0, 0⟩) h
  induction its with
  | nil => intro acc hacc; exact hacc
  | cons x xs ih =>
    intro acc hacc
    exact ih _ (crawlStep_preserves_nodup a now acc x hacc)

/-! ## Claim theorems -/

/-- C1: the claim says a relative phrase "2 hours ago" with source zone
UTC+3:30 at reference instant 2024-01-01T12:00:00+03:30 (now-UTC = minute
510 of the day) normalizes to 2024-01-01T06:30:00Z (minute 390).  The code
instead returns the current UTC instant, minute 510: the matched relative
branch evaluates `now - timedelta(hours=2)` with `timedelta` unbound
(never imported), and the resulting `NameError` lands in the generic
exception handler, which falls back to `datetime.now(pytz.UTC)`. -/
theorem parse_date_relative_phrase_returns_now :
    parseDate (fun _ => none) 510 "2 ساعت پیش".toList = some 510 ∧
    parseDate (fun _ => none) 510 "2 ساعت پیش".toList ≠ some 390 := by
  constructor
  · decide
  · decide

/-- C4, counterexample: the claim says every input string — the empty string
included — yields a UTC instant; the code returns `None` for falsy input
(lines 76-77), producing no instant at all. -/
theorem parse_date_empty_string_returns_none :
    parseDate (fun _ => none) 0 "".toList = none := by decide

/-- C4, amended: for every non-empty input the normalizer returns some UTC
instant and never raises (each exception path lands in a handler returning a
value), and on total parse failure — no date separator, no relative
pattern — the value is the current UTC instant.  The empty string, however,
yields `None`, and there is no low-confidence flag, only a logged warning. -/
theorem parse_date_total_on_nonempty (du : List Char → Option PyDatetime)
    (now : ℤ) (s : List Char) (h : s ≠ []) :
    (parseDate du now s).isSome = true ∧
    ((stripChars s).contains 'T' = false → (stripChars s).contains '-' = false →
      parseDate du now s = some now) := by
  constructor
  · unfold parseDate
    rw [if_neg h]
    dsimp only
    split
    · cases du (stripChars s) <;> simp
    · cases relMatch (stripChars s) <;> simp
  · intro hT hDash
    unfold parseDate
    rw [if_neg h]
    dsimp only
    rw [hT, hDash]
    simp only [Bool.or_self, Bool.false_eq_true, if_false]
    cases relMatch (stripChars s) <;> simp

/-- Witness for `parse_date_total_on_nonempty` at the input "garbage". -/
theorem parse_date_total_on_nonempty_witness :
    (parseDate (fun _ => none) 77 "garbage".toList).isSome = true ∧
    parseDate (fun _ => none) 77 "garbage".toList = some 77 := by
  have h := parse_date_total_on_nonempty (fun _ => none) 77 "garbage".toList (by decide)
  exact ⟨h.1, h.2 (by decide) (by decide)⟩

/-- C7: the claim says the position follows from the candidate's index among
its sibling candidates (0–2 top, first half middle, rest bottom, otherwise
unknown).  The index search of lines 135-138 tests
`element in news_elem.find_all()`, i.e. looks for the element among each
candidate's proper descendants; a top-level sibling candidate is never found
there, so every candidate of a flat listing gets "unknown" and the
classification arm of lines 142-147 is unreachable for them. -/
theorem determine_position_siblings_all_unknown :
    samplePage.map (determinePosition samplePage) =
      ["unknown", "unknown", "unknown", "unknown"] := by decide

/-- C10: analyzing an already-flagged duplicate is a no-op on the store and
returns the `already_duplicate` status (lines 50-52). -/
theorem analyze_already_duplicate_is_noop (P : String → String)
    (simO : List String → Option (List ℚ))
    (S : Store) (itemId : Nat) (now : ℤ) (item : NewsItem)
    (hfind : S.items.find? (fun it => it.id == itemId) = some item)
    (hdup : item.isDuplicate = true) :
    analyzeNewsItem P simO S itemId now = (S, .alreadyDuplicate) := by
  unfold analyzeNewsItem
  rw [hfind]
  simp [hdup]

/-- Witness for `analyze_already_duplicate_is_noop` on a concrete store. -/
theorem analyze_already_duplicate_is_noop_witness :
    analyzeNewsItem idPre constSim dupStore 2 0 = (dupStore, .alreadyDuplicate) :=
  analyze_already_duplicate_is_noop idPre constSim dupStore 2 0 dupItem
    (by decide) (by decide)

/-- C2, counterexample: the claim says an article with empty cleaned text
gets a new singleton group (main title = article title, founding membership
score 1.0) and terminal state `new_group`.  The code instead returns early
with status `no_text` (lines 57-59) and writes nothing: no group exists
afterwards. -/
theorem analyze_no_text_counterexample :
    analyzeNewsItem emptyPre noSim noTextStore 1 0 = (noTextStore, .noText) ∧
    (analyzeNewsItem emptyPre noSim noTextStore 1 0).1.groups = [] := by
  constructor
  · decide
  · decide

/-- C2, amended: for every stored, not-yet-duplicate article whose
preprocessed text is empty, the analysis returns status `no_text` and leaves
the store unchanged — no Story Group and no Membership are created. -/
theorem analyze_no_text_is_noop (P : String → String)
    (simO : List String → Option (List ℚ))
    (S : Store) (itemId : Nat) (now : ℤ) (item : NewsItem)
    (hfind : S.items.find? (fun it => it.id == itemId) = some item)
    (hdup : item.isDuplicate = false)
    (htext : (P (joinedText item)).toList.all (fun c => c.isWhitespace) = true) :
    analyzeNewsItem P simO S itemId now = (S, .noText) := by
  unfold analyzeNewsItem
  rw [hfind]
  dsimp only
  rw [hdup, htext]
  simp

/-- Witness for `analyze_no_text_is_noop` on a concrete store. -/
theorem analyze_no_text_is_noop_witness :
    analyzeNewsItem emptyPre noSim noTextStore 1 5 = (noTextStore, .noText) :=
  analyze_no_text_is_noop emptyPre noSim noTextStore 1 5 speedItemA
    (by decide) (by decide) (by decide)

/-- C3: when the best similarity score reaches the grouping threshold 0.75
and the matched candidate has a membership, the article is attached to that
candidate's group by a new membership carrying the computed score, no new
group is created, and the stored duplicate flag ends up true exactly when
the score also reaches the duplicate threshold 0.90 (scores in
[0.75, 0.90) leave it false, as the article entered un-flagged). -/
theorem analyze_attach_and_duplicate_flag (P : String → String)
    (simO : List String → Option (List ℚ))
    (S : Store) (itemId : Nat) (now : ℤ) (item : NewsItem) (sims : List ℚ)
    (cand : Nat × String) (egi : NewsGroupItem)
    (hfind : S.items.find? (fun it => it.id == itemId) = some item)
    (hdup : item.isDuplicate = false)
    (htext : (P (joinedText item)).toList.all (fun c => c.isWhitespace) = false)
    (hcands : (recentCandidates S item now).isEmpty = false)
    (husable : (usableCandidates P (recentCandidates S item now)).isEmpty = false)
    (hsim : simO (P (joinedText item) ::
        (usableCandidates P (recentCandidates S item now)).map Prod.snd) = some sims)
    (hne : sims.isEmpty = false)
    (hth : similarityThreshold ≤ sims.getD (argmaxIdx sims) 0)
    (hcand : (usableCandidates P (recentCandidates S item now))[argmaxIdx sims]? = some cand)
    (hgi : S.groupItems.find? (fun gi => gi.itemId == cand.1) = some egi) :
    (analyzeNewsItem P simO S itemId now).1.groupItems
        = S.groupItems
          ++ [{groupId := egi.groupId, itemId := itemId, score := sims.getD (argmaxIdx sims) 0}]
    ∧ (analyzeNewsItem P simO S itemId now).1.groups = S.groups
    ∧ storedDupFlag (analyzeNewsItem P simO S itemId now).1 itemId
        = decide (duplicateThreshold ≤ sims.getD (argmaxIdx sims) 0)
    ∧ (analyzeNewsItem P simO S itemId now).2
        = .addedToGroup egi.groupId (sims.getD (argmaxIdx sims) 0)
            (decide (duplicateThreshold ≤ sims.getD (argmaxIdx sims) 0)) := by
  have hid : item.id = itemId := by simpa using List.find?_some hfind
  have key := analyzeNewsItem_attach_eq P simO S itemId now item sims cand egi hfind hdup
    htext hcands husable hsim hne hth hcand hgi
  rw [key]
  dsimp only
  by_cases hd : duplicateThreshold ≤ sims.getD (argmaxIdx sims) 0
  · have hd2 : duplicateThreshold ≤ sims[argmaxIdx sims]?.getD 0 := by
      simpa [List.getD] using hd
    rw [if_pos hd]
    refine ⟨by simp [setDuplicate, hid], by simp [setDuplicate], ?_, by simp [List.getD, hd2]⟩
    rw [hid]
    rw [storedDupFlag_setDuplicate _ itemId {item with isDuplicate := item.isDuplicate}
      (by simpa using hfind)]
    simp [List.getD, hd2]
  · have hd2 : ¬ duplicateThreshold ≤ sims[argmaxIdx sims]?.getD 0 := by
      simpa [List.getD] using hd
    rw [if_neg hd]
    refine ⟨by simp [hid], rfl, ?_, by simp [List.getD, hd2]⟩
    have hfl : storedDupFlag {S with groupItems := S.groupItems ++
        [{groupId := egi.groupId, itemId := item.id,
          score := sims.getD (argmaxIdx sims) 0}]} itemId = item.isDuplicate :=
      storedDupFlag_of_find? _ _ _ (by simpa using hfind)
    rw [hfl, hdup]
    simp [List.getD, hd2]

/-- Witness for `analyze_attach_and_duplicate_flag`: item 2 scores 0.8
against item 1 (member of group 10), is attached with score 0.8 and stays
un-flagged. -/
theorem analyze_attach_and_duplicate_flag_witness :
    (analyzeNewsItem idPre constSim analyzeStore 2 100).1.groupItems
        = analyzeStore.groupItems
          ++ [{groupId := 10, itemId := 2, score := scoreEightTenths}]
    ∧ (analyzeNewsItem idPre constSim analyzeStore 2 100).1.groups = analyzeStore.groups
    ∧ storedDupFlag (analyzeNewsItem idPre constSim analyzeStore 2 100).1 2 = false
    ∧ (analyzeNewsItem idPre constSim analyzeStore 2 100).2
        = .addedToGroup 10 scoreEightTenths false := by
  have h := analyze_attach_and_duplicate_flag idPre constSim analyzeStore 2 100
    speedItemB [scoreEightTenths] (1, "a ") speedMembershipA
    (by decide) (by decide) (by decide) (by decide) (by decide) rfl
    (by decide) (by decide) (by decide) (by decide)
  refine ⟨?_, h.2.1, ?_, ?_⟩
  · rw [h.1]; decide
  · rw [h.2.2.1]; decide
  · rw [h.2.2.2]; decide

/-- C8: when the best score reaches the grouping threshold but the matched
candidate has no membership row, the operation does not fail: it falls
through to the no-candidates handling and creates a fresh singleton group
(founding membership score 1.0) for the article, reporting `new_group`
with the score kept for diagnostics (lines 148 and 173-193). -/
theorem analyze_missing_membership_new_group (P : String → String)
    (simO : List String → Option (List ℚ))
    (S : Store) (itemId : Nat) (now : ℤ) (item : NewsItem) (sims : List ℚ)
    (cand : Nat × String)
    (hfind : S.items.find? (fun it => it.id == itemId) = some item)
    (hdup : item.isDuplicate = false)
    (htext : (P (joinedText item)).toList.all (fun c => c.isWhitespace) = false)
    (hcands : (recentCandidates S item now).isEmpty = false)
    (husable : (usableCandidates P (recentCandidates S item now)).isEmpty = false)
    (hsim : simO (P (joinedText item) ::
        (usableCandidates P (recentCandidates S item now)).map Prod.snd) = some sims)
    (hne : sims.isEmpty = false)
    (hth : similarityThreshold ≤ sims.getD (argmaxIdx sims) 0)
    (hcand : (usableCandidates P (recentCandidates S item now))[argmaxIdx sims]? = some cand)
    (hgi : S.groupItems.find? (fun gi => gi.itemId == cand.1) = none) :
    (analyzeNewsItem P simO S itemId now).1.groups
        = S.groups ++ [{id := S.nextGroupId, mainTitle := item.title, creationTime := now}]
    ∧ (analyzeNewsItem P simO S itemId now).1.groupItems
        = S.groupItems ++ [{groupId := S.nextGroupId, itemId := itemId, score := 1}]
    ∧ (analyzeNewsItem P simO S itemId now).1.items = S.items
    ∧ (analyzeNewsItem P simO S itemId now).2
        = .newGroup S.nextGroupId (some (sims.getD (argmaxIdx sims) 0)) := by
  have hid : item.id = itemId := by simpa using List.find?_some hfind
  simp only [List.getD] at hth
  simp only [analyzeNewsItem, hfind, hdup, htext, hcands, husable, hsim, hne, hcand, hgi,
    Bool.false_eq_true, if_false, List.getD]
  rw [if_pos hth]
  simp [createNewGroup, hid, List.getD]

/-- Witness for `analyze_missing_membership_new_group`: item 2 scores 0.8
against item 1, which has no membership; a fresh group 11 is created. -/
theorem analyze_missing_membership_new_group_witness :
    (analyzeNewsItem idPre constSim orphanStore 2 100).1.groups
        = orphanStore.groups ++ [{id := 11, mainTitle := "b", creationTime := 100}]
    ∧ (analyzeNewsItem idPre constSim orphanStore 2 100).1.groupItems
        = orphanStore.groupItems ++ [{groupId := 11, itemId := 2, score := 1}]
    ∧ (analyzeNewsItem idPre constSim orphanStore 2 100).1.items = orphanStore.items
    ∧ (analyzeNewsItem idPre constSim orphanStore 2 100).2
        = .newGroup 11 (some scoreEightTenths) := by
  have h := analyze_missing_membership_new_group idPre constSim orphanStore 2 100
    speedItemB [scoreEightTenths] (1, "a ")
    (by decide) (by decide) (by decide) (by decide) (by decide) rfl
    (by decide) (by decide) (by decide) (by decide)
  refine ⟨?_, ?_, h.2.2.1, ?_⟩
  · rw [h.1]; decide
  · rw [h.2.1]; decide
  · rw [h.2.2.2]; decide

/-- C9: a scraped item whose URL is already stored adds no second article —
the step leaves the store untouched and counts a duplicate, not an error —
and the whole ingestion loop preserves canonical-URL uniqueness. -/
theorem crawl_url_uniqueness (a : Nat) (now : ℤ) (S : Store) (c : CrawlCounts)
    (its : List ScrapedItem) (it : ScrapedItem) (u : String)
    (hnd : urlsNodup S) (hu : it.url = some u) (hex : urlExists S u = true) :
    urlsNodup (crawlLoop a now S its).1
    ∧ crawlStep a now (S, c) it = (S, {c with dups := c.dups + 1}) :=
  ⟨crawlLoop_preserves_nodup a now S its hnd,
   crawlStep_existing_url a now S c it u hu hex⟩

/-- Witness for `crawl_url_uniqueness`: re-scraping URL "u1" into a store
already holding it. -/
theorem crawl_url_uniqueness_witness :
    urlsNodup (crawlLoop 1 50 noTextStore [scrapedDup]).1
    ∧ crawlStep 1 50 (noTextStore, ⟨0, 0, 0⟩) scrapedDup
        = (noTextStore, {saved := 0, dups := 1, errs := 0}) :=
  crawl_url_uniqueness 1 50 noTextStore ⟨0, 0, 0⟩ [scrapedDup] scrapedDup "u1"
    (by unfold urlsNodup; decide) (by decide) (by decide)

/-- C5, counterexample: the claim quantifies over every member with a known
publish time and no existing metric — which includes the earliest-published
member — and asks for exactly one metric each.  On a two-member group
(T0 and T0+47) the code gives the earliest member no metric at all. -/
theorem speed_earliest_member_counterexample :
    ¬ (∀ p ∈ joinedGroupRows speedStore 10, hasSpeedMetric speedStore p.1.id = false →
        (metricsFor (calculatePublicationSpeed speedStore 10 0).1 p.1.id).length = 1) := by
  decide

/-- C5, amended: with fewer than two timestamped rows the calculator returns
the explicit insufficient-data result and changes nothing; otherwise, for
every row after the first in publication order (the first row is one with
minimal publish time) that has no existing speed metric, exactly one metric
is persisted, equal to the minutes elapsed since the earliest publish time.
The earliest row itself never receives a metric. -/
theorem speed_metrics_since_earliest (S : Store) (gid : Nat) (now : ℤ)
    (hg : (S.groups.find? (fun g => g.id == gid)).isSome = true) :
    ((speedGroupRows S gid).length < 2 →
       calculatePublicationSpeed S gid now = (S, .insufficientItems))
    ∧ (∀ f rest, speedGroupRows S gid = f :: rest →
        ((f :: rest).map (fun p => p.1.id)).Nodup →
        (∀ q ∈ speedGroupRows S gid, pubLe f q = true)
        ∧ (∀ p ∈ rest, hasSpeedMetric S p.1.id = false →
            metricsFor (calculatePublicationSpeed S gid now).1 p.1.id =
              [{itemId := p.1.id, analysisType := speedKind,
                value := p.1.pubTime.getD 0 - f.1.pubTime.getD 0, time := now}])) := by
  obtain ⟨g, hgeq⟩ := Option.isSome_iff_exists.mp hg
  constructor
  · intro hlen
    unfold calculatePublicationSpeed
    rw [hgeq]
    dsimp only
    cases hrows : speedGroupRows S gid with
    | nil => rfl
    | cons f rest =>
      cases rest with
      | nil => rfl
      | cons r rest2 =>
        rw [hrows] at hlen
        simp only [List.length_cons] at hlen
        omega
  · intro f rest hrows hnodup
    constructor
    · intro q hq
      exact sortBy_head_min pubLe_refl pubLe_trans pubLe_total
        (joinedGroupRows S gid) f rest hrows q hq
    · intro p hp hm
      cases rest with
      | nil => exact absurd hp (List.not_mem_nil p)
      | cons r rest2 =>
        have hpub : p.1.pubTime.isSome = true :=
          mem_speedGroupRows_pubTime (hrows ▸ List.mem_cons_of_mem f hp)
        have hnd2 : ((r :: rest2).map (fun p => p.1.id)).Nodup := by
          simp only [List.map_cons, List.nodup_cons] at hnodup ⊢
          exact hnodup.2
        unfold calculatePublicationSpeed
        rw [hgeq]
        dsimp only
        rw [hrows]
        dsimp only
        rw [speedLoop_member (f.1.pubTime.getD 0) now (r :: rest2) S 0 hnd2 p hp hpub]
        rw [metricsFor_eq_nil_of_no_metric S p.1.id hm, hm]
        simp

/-- Witness for `speed_metrics_since_earliest`: a single-member group yields
insufficient data; on the T0/T0+47 group the second member's metric is 47. -/
theorem speed_metrics_since_earliest_witness :
    calculatePublicationSpeed speedStoreSmall 20 0 = (speedStoreSmall, .insufficientItems)
    ∧ metricsFor (calculatePublicationSpeed speedStore 10 100).1 2
        = [{itemId := 2, analysisType := speedKind, value := 47, time := 100}] := by
  have h1 := (speed_metrics_since_earliest speedStoreSmall 20 0 (by decide)).1 (by decide)
  have h2 := ((speed_metrics_since_earliest speedStore 10 100 (by decide)).2
      (speedItemA, speedMembershipA) [(speedItemB, speedMembershipB)]
      (by decide) (by decide)).2
      (speedItemB, speedMembershipB) (by decide) (by decide)
  refine ⟨h1, ?_⟩
  exact h2

/-- C6: re-running the speed calculator on a group whose store it already
produced is a no-op (idempotence), the metric invariant is preserved, and
the number of speed metrics attached to the group's members never exceeds
the timestamped-member count minus one — the earliest-published member
never receives a metric. -/
theorem speed_idempotent_and_bounded (S : Store) (gid : Nat) (now now' : ℤ)
    (hInv : SpeedInv S gid) :
    (calculatePublicationSpeed (calculatePublicationSpeed S gid now).1 gid now').1
      = (calculatePublicationSpeed S gid now).1
    ∧ SpeedInv (calculatePublicationSpeed S gid now).1 gid
    ∧ (groupSpeedIds (calculatePublicationSpeed S gid now).1 gid).length
      ≤ (joinedGroupRows (calculatePublicationSpeed S gid now).1 gid).length - 1 := by
  cases hfg : S.groups.find? (fun g => g.id == gid) with
  | none =>
    have hcalc : calculatePublicationSpeed S gid now = (S, .groupNotFound) := by
      unfold calculatePublicationSpeed
      rw [hfg]
    rw [hcalc]
    refine ⟨?_, hInv, speedInv_bound S gid hInv⟩
    unfold calculatePublicationSpeed
    rw [hfg]
  | some g =>
    cases hrows : speedGroupRows S gid with
    | nil =>
      have hcalc : calculatePublicationSpeed S gid now = (S, .insufficientItems) := by
        unfold calculatePublicationSpeed
        rw [hfg]
        dsimp only
        rw [hrows]
      rw [hcalc]
      refine ⟨?_, hInv, speedInv_bound S gid hInv⟩
      unfold calculatePublicationSpeed
      rw [hfg]
      dsimp only
      rw [hrows]
    | cons f rest =>
      cases rest with
      | nil =>
        have hcalc : calculatePublicationSpeed S gid now = (S, .insufficientItems) := by
          unfold calculatePublicationSpeed
          rw [hfg]
          dsimp only
          rw [hrows]
        rw [hcalc]
        refine ⟨?_, hInv, speedInv_bound S gid hInv⟩
        unfold calculatePublicationSpeed
        rw [hfg]
        dsimp only
        rw [hrows]
      | cons r rest2 =>
        have hcalc : calculatePublicationSpeed S gid now =
            ((speedLoop (f.1.pubTime.getD 0) now (r :: rest2) S 0).1,
             .success (speedLoop (f.1.pubTime.getD 0) now (r :: rest2) S 0).2) := by
          unfold calculatePublicationSpeed
          rw [hfg]
          dsimp only
          rw [hrows]
        have hfr := speedLoop_frame (f.1.pubTime.getD 0) now (r :: rest2) S 0
        have hcongr := speedGroupRows_congr S
          (speedLoop (f.1.pubTime.getD 0) now (r :: rest2) S 0).1 gid hfr.1 hfr.2.2
        have htcongr : tailMemberIds
            (speedLoop (f.1.pubTime.getD 0) now (r :: rest2) S 0).1 gid
            = tailMemberIds S gid := by
          unfold tailMemberIds
          rw [hcongr]
        have hinv2 : SpeedInv (speedLoop (f.1.pubTime.getD 0) now (r :: rest2) S 0).1 gid := by
          have hmem : ∀ p ∈ r :: rest2, p.1.id ∈ tailMemberIds S gid := by
            intro p hp
            unfold tailMemberIds
            rw [hrows]
            exact List.mem_map_of_mem (fun p => p.1.id) hp
          have hli := speedLoop_inv gid (tailMemberIds S gid) (f.1.pubTime.getD 0) now
            (r :: rest2) S 0 hmem hInv.1 hInv.2
          refine ⟨hli.1, ?_⟩
          rw [htcongr]
          exact hli.2
        rw [hcalc]
        refine ⟨?_, hinv2, speedInv_bound _ gid hinv2⟩
        unfold calculatePublicationSpeed
        rw [hfr.2.1, hfg]
        dsimp only
        rw [hcongr, hrows]
        dsimp only
        rw [speedLoop_noop (f.1.pubTime.getD 0) now' (r :: rest2) _ 0
          (fun p hp hpub => speedLoop_all_metered (f.1.pubTime.getD 0) now (r :: rest2) S 0 p hp hpub)]

/-- Witness for `speed_idempotent_and_bounded` on the T0/T0+47 group. -/
theorem speed_idempotent_and_bounded_witness :
    (calculatePublicationSpeed (calculatePublicationSpeed speedStore 10 100).1 10 200).1
      = (calculatePublicationSpeed speedStore 10 100).1
    ∧ SpeedInv (calculatePublicationSpeed speedStore 10 100).1 10
    ∧ (groupSpeedIds (calculatePublicationSpeed speedStore 10 100).1 10).length
      ≤ (joinedGroupRows (calculatePublicationSpeed speedStore 10 100).1 10).length - 1 :=
  speed_idempotent_and_bounded speedStore 10 100 200
    (by unfold SpeedInv; constructor <;> decide)

end NewsAnalyzer
